import Mathlib

/-!
Formal model of the arrival-playback core of the LPP bus visualization
(`src/visualization/src/lpp/replayer.ts`, `src/visualization/src/lpp/stationSearcher.ts`,
the `clamp` helper from `utilities.ts`, and the data model from `lpp/models.ts`).

JavaScript numbers are modelled as rationals (`ℚ`); none of the modelled code paths
depend on floating-point rounding, NaN or -0 behaviour.  JavaScript class instances
are modelled as immutable structure values, with the mutating methods
(`TimeOfDay.tick`, `BusArrivalPlayback.tick`) returning the updated value.
-/

namespace LPP

/-- Model of `clamp` from `src/visualization/src/utilities.ts`. -/
def clamp (value minimum maximum : ℚ) : ℚ :=
  if value > maximum then maximum
  else if value < minimum then minimum
  else value

/-- Model of `RelativeMinutes` from `replayer.ts` (a single, possibly fractional, minute count). -/
structure RelativeMinutes where
  minute : ℚ
deriving DecidableEq, Repr

/-- Model of `TimeOfDay` from `replayer.ts`: hour plus (possibly fractional) minute. -/
structure TimeOfDay where
  hour : ℚ
  minute : ℚ
deriving DecidableEq, Repr

/-- The `TimeOfDay` constructor: clamps hour to `[1,24]` and minute to `[0,59]`. -/
def TimeOfDay.make (initialHour initialMinute : ℚ) : TimeOfDay :=
  { hour := clamp initialHour 1 24, minute := clamp initialMinute 0 59 }

/-- First loop of `TimeOfDay.reflowUnits`:
`while (minute >= 60) { hour += 1; minute -= 60; }`. -/
def reflowMinuteLoop (hour minute : ℚ) : ℚ × ℚ :=
  if 60 ≤ minute then reflowMinuteLoop (hour + 1) (minute - 60)
  else (hour, minute)
termination_by (⌈minute⌉).toNat
decreasing_by
  rename_i h
  have h60 : (60 : ℤ) ≤ ⌈minute⌉ := by
    have := (Int.le_ceil minute)
    exact_mod_cast le_trans h this
  have hsub : ⌈minute - 60⌉ = ⌈minute⌉ - 60 := by
    exact_mod_cast Int.ceil_sub_int minute (60 : ℤ)
  rw [hsub]
  omega

/-- Second loop of `TimeOfDay.reflowUnits`: `while (hour >= 25) { hour -= 24; }`. -/
def reflowHourLoop (hour : ℚ) : ℚ :=
  if 25 ≤ hour then reflowHourLoop (hour - 24)
  else hour
termination_by (⌈hour⌉).toNat
decreasing_by
  rename_i h
  have h25 : (25 : ℤ) ≤ ⌈hour⌉ := by
    have := (Int.le_ceil hour)
    exact_mod_cast le_trans h this
  have hsub : ⌈hour - 24⌉ = ⌈hour⌉ - 24 := by
    exact_mod_cast Int.ceil_sub_int hour (24 : ℤ)
  rw [hsub]
  omega

/-- Model of `TimeOfDay.reflowUnits` from `replayer.ts`. -/
def TimeOfDay.reflowUnits (t : TimeOfDay) : TimeOfDay :=
  let p := reflowMinuteLoop t.hour t.minute
  { hour := reflowHourLoop p.1, minute := p.2 }

/-- Model of `TimeOfDay.tick` from `replayer.ts`: `this.minute += minutes; this.reflowUnits();`. -/
def TimeOfDay.tick (t : TimeOfDay) (minutes : ℚ) : TimeOfDay :=
  TimeOfDay.reflowUnits { hour := t.hour, minute := t.minute + minutes }

/-- Model of `TimeOfDay.elapsedSince` from `replayer.ts`; the thrown `ProjectError` is
modelled as `Except.error` carrying the message. -/
def TimeOfDay.elapsedSince (t preceedingTime : TimeOfDay) : Except String RelativeMinutes :=
  if preceedingTime.hour > t.hour then
    .error "Invalid elapsedSince call: preceedingTime comes after us."
  else if preceedingTime.hour = t.hour ∧ preceedingTime.minute > t.minute then
    .error "Invalid elapsedSince call: preceedingTime comes after us."
  else
    .ok { minute := (t.hour - preceedingTime.hour) * 60 + (t.minute - preceedingTime.minute) }

/-- Unfolding equation for `reflowMinuteLoop` when the loop guard holds. -/
theorem reflowMinuteLoop_step {hour minute : ℚ} (h : 60 ≤ minute) :
    reflowMinuteLoop hour minute = reflowMinuteLoop (hour + 1) (minute - 60) := by
  rw [reflowMinuteLoop]
  simp [h]

/-- Unfolding equation for `reflowMinuteLoop` when the loop guard fails. -/
theorem reflowMinuteLoop_done {hour minute : ℚ} (h : minute < 60) :
    reflowMinuteLoop hour minute = (hour, minute) := by
  rw [reflowMinuteLoop]
  simp [not_le_of_lt h]

/-- Unfolding equation for `reflowHourLoop` when the loop guard holds. -/
theorem reflowHourLoop_step {hour : ℚ} (h : 25 ≤ hour) :
    reflowHourLoop hour = reflowHourLoop (hour - 24) := by
  rw [reflowHourLoop]
  simp [h]

/-- Unfolding equation for `reflowHourLoop` when the loop guard fails. -/
theorem reflowHourLoop_done {hour : ℚ} (h : hour < 25) :
    reflowHourLoop hour = hour := by
  rw [reflowHourLoop]
  simp [not_le_of_lt h]

/-- Full characterization of the minute-normalization loop: it adds some natural
number `j` of hours while removing `60 * j` minutes, stopping below 60 minutes. -/
theorem reflowMinuteLoop_spec (hour minute : ℚ) :
    ∃ j : ℕ, reflowMinuteLoop hour minute = (hour + j, minute - 60 * j) ∧
      minute - 60 * j < 60 ∧ (0 ≤ minute → 0 ≤ minute - 60 * j) := by
  by_cases h : 60 ≤ minute
  · obtain ⟨j, hj, hlt, hnn⟩ := reflowMinuteLoop_spec (hour + 1) (minute - 60)
    refine ⟨j + 1, ?_, ?_, ?_⟩
    · rw [reflowMinuteLoop_step h, hj, Prod.mk.injEq]
      refine ⟨by push_cast; ring, by push_cast; ring⟩
    · push_cast
      linarith
    · intro _
      have : 0 ≤ minute - 60 := by linarith
      have := hnn this
      push_cast
      linarith
  · push_neg at h
    exact ⟨0, by rw [reflowMinuteLoop_done h]; norm_num, by norm_num; linarith, by norm_num⟩
termination_by (⌈minute⌉).toNat
decreasing_by
  have h60 : (60 : ℤ) ≤ ⌈minute⌉ := by
    have := (Int.le_ceil minute)
    exact_mod_cast le_trans h this
  have hsub : ⌈minute - 60⌉ = ⌈minute⌉ - 60 := by
    exact_mod_cast Int.ceil_sub_int minute (60 : ℤ)
  rw [hsub]
  omega

/-- Full characterization of the hour-wrap loop: it removes some natural number
`k` of whole 24-hour days, stopping below hour 25 and never dropping below hour 1
when it started at hour 1 or later. -/
theorem reflowHourLoop_spec (hour : ℚ) :
    ∃ k : ℕ, reflowHourLoop hour = hour - 24 * k ∧
      hour - 24 * k < 25 ∧ (1 ≤ hour → 1 ≤ hour - 24 * k) := by
  by_cases h : 25 ≤ hour
  · obtain ⟨k, hk, hlt, hge⟩ := reflowHourLoop_spec (hour - 24)
    refine ⟨k + 1, ?_, ?_, ?_⟩
    · rw [reflowHourLoop_step h, hk]
      push_cast
      ring
    · push_cast
      linarith
    · intro _
      have : (1 : ℚ) ≤ hour - 24 := by linarith
      have := hge this
      push_cast
      linarith
  · push_neg at h
    exact ⟨0, by rw [reflowHourLoop_done h]; norm_num, by norm_num; linarith, by norm_num⟩
termination_by (⌈hour⌉).toNat
decreasing_by
  have h25 : (25 : ℤ) ≤ ⌈hour⌉ := by
    have := (Int.le_ceil hour)
    exact_mod_cast le_trans h this
  have hsub : ⌈hour - 24⌉ = ⌈hour⌉ - 24 := by
    exact_mod_cast Int.ceil_sub_int hour (24 : ℤ)
  rw [hsub]
  omega

/-- Model of `GeographicalLocation` from `lpp/models.ts` (latitude/longitude in degrees).
Its `clone()` method is the identity on this immutable value model. -/
structure GeographicalLocation where
  latitude : ℚ
  longitude : ℚ
deriving DecidableEq, Repr

/-- Model of `TimetableEntry` from `lpp/models.ts`: one scheduled (hour, minute) arrival. -/
structure TimetableEntry where
  hour : ℚ
  minute : ℚ
deriving DecidableEq, Repr

/-- Model of `TripTimetable` from `lpp/models.ts`.  Only the fields read by the playback
engine (`route`, `tripName`, `timetable`) are modelled; `shortTripName`,
`endsInGarage` and `stations` are never read by any function modelled here. -/
structure TripTimetable where
  route : String
  tripName : String
  timetable : List TimetableEntry
deriving DecidableEq, Repr

/-- Model of `RouteGroupTimetable` from `lpp/models.ts`; `routeGroupName` is never read
by the playback engine and is omitted. -/
structure RouteGroupTimetable where
  tripTimetables : List TripTimetable
deriving DecidableEq, Repr

/-- Model of `StationDetailsWithBusesAndTimetables` from `lpp/models.ts`.  `tripsOnStation`
is never read by the functions modelled here and is omitted. -/
structure StationDetailsWithBusesAndTimetables where
  stationCode : String
  internalStationId : ℚ
  name : String
  location : GeographicalLocation
  timetables : List RouteGroupTimetable
deriving DecidableEq, Repr

/-- Model of `AllStationsSnapshot` from `lpp/models.ts`; the capture timestamp is never
read by the playback engine and is omitted. -/
structure AllStationsSnapshot where
  stationDetails : List StationDetailsWithBusesAndTimetables
deriving DecidableEq, Repr

/-- Model of `BusArrival` from `replayer.ts`. -/
structure BusArrival where
  route : String
  tripName : String
  location : GeographicalLocation
deriving DecidableEq, Repr

/-- Model of `ArrivalSet` from `replayer.ts`: a timestamp with all arrivals at it. -/
structure ArrivalSet where
  time : TimeOfDay
  arrivals : List BusArrival
deriving DecidableEq, Repr

/-- Chronological (non-wrapping) order on `TimeOfDay`: hour major, minute minor. -/
def TimeOfDay.chronLE (a b : TimeOfDay) : Prop :=
  a.hour < b.hour ∨ (a.hour = b.hour ∧ a.minute ≤ b.minute)

/-- Strict chronological (non-wrapping) order on `TimeOfDay`. -/
def TimeOfDay.chronLT (a b : TimeOfDay) : Prop :=
  a.hour < b.hour ∨ (a.hour = b.hour ∧ a.minute < b.minute)

instance : DecidableRel TimeOfDay.chronLE := by
  intro a b
  unfold TimeOfDay.chronLE
  infer_instance

instance : DecidableRel TimeOfDay.chronLT := by
  intro a b
  unfold TimeOfDay.chronLT
  infer_instance

/-- The total preorder induced by the comparator passed to `array.sort` in
`sortArrivalSetArray` (`replayer.ts`): compare hours; on equal hours compare
minutes.  `a ≼ b` holds exactly when the comparator returns a value `≤ 0`. -/
def arrivalSetLE (a b : ArrivalSet) : Prop :=
  if a.time.hour = b.time.hour then a.time.minute ≤ b.time.minute
  else a.time.hour ≤ b.time.hour

instance : DecidableRel arrivalSetLE := by
  intro a b
  unfold arrivalSetLE
  infer_instance

/-- The sort comparator's preorder coincides with the chronological order on times. -/
theorem arrivalSetLE_iff (a b : ArrivalSet) :
    arrivalSetLE a b ↔ a.time.chronLE b.time := by
  unfold arrivalSetLE TimeOfDay.chronLE
  by_cases h : a.time.hour = b.time.hour
  · simp [h]
  · rw [if_neg h]
    constructor
    · intro hle
      exact Or.inl (lt_of_le_of_ne hle h)
    · rintro (hlt | ⟨he, -⟩)
      · exact le_of_lt hlt
      · exact absurd he h

theorem TimeOfDay.chronLE_trans {a b c : TimeOfDay}
    (h1 : a.chronLE b) (h2 : b.chronLE c) : a.chronLE c := by
  unfold TimeOfDay.chronLE at *
  rcases h1 with h1 | ⟨h1e, h1m⟩ <;> rcases h2 with h2 | ⟨h2e, h2m⟩
  · exact Or.inl (h1.trans h2)
  · exact Or.inl (by rw [← h2e]; exact h1)
  · exact Or.inl (by rw [h1e]; exact h2)
  · exact Or.inr ⟨h1e.trans h2e, h1m.trans h2m⟩

theorem TimeOfDay.chronLE_total (a b : TimeOfDay) : a.chronLE b ∨ b.chronLE a := by
  unfold TimeOfDay.chronLE
  rcases lt_trichotomy a.hour b.hour with h | h | h
  · exact Or.inl (Or.inl h)
  · rcases le_total a.minute b.minute with hm | hm
    · exact Or.inl (Or.inr ⟨h, hm⟩)
    · exact Or.inr (Or.inr ⟨h.symm, hm⟩)
  · exact Or.inr (Or.inl h)

instance : IsTotal ArrivalSet arrivalSetLE := by
  constructor
  intro a b
  rw [arrivalSetLE_iff, arrivalSetLE_iff]
  exact TimeOfDay.chronLE_total _ _

instance : IsTrans ArrivalSet arrivalSetLE := by
  constructor
  intro a b c hab hbc
  rw [arrivalSetLE_iff] at *
  exact TimeOfDay.chronLE_trans hab hbc

/-- Model of `sortArrivalSetArray` from `replayer.ts`.  `Array.prototype.sort` with a
consistent comparator is specified by ECMAScript to produce the stable sort of
the array under the comparator's induced preorder; that permutation is unique,
so the stable `List.insertionSort` models it exactly. -/
def sortArrivalSetArray (array : List ArrivalSet) : List ArrivalSet :=
  List.insertionSort arrivalSetLE array

/-- One step of the `optimizedArrivals` map accumulation inside
`BusArrivalPlayback.generateOptimizedArrivals` (`replayer.ts`), for a single
`timetableEntry`.  The JavaScript `Map` keyed by the template string
`` `${hour}:${minute}` `` (an injective encoding of the `(hour, minute)` pair,
since the decimal rendering of a number never contains `:`) is modelled as an
insertion-ordered association list keyed by the pair itself. -/
def insertTimetableEntry (route tripName : String) (location : GeographicalLocation)
    (acc : List ((ℚ × ℚ) × ArrivalSet)) (entry : TimetableEntry) :
    List ((ℚ × ℚ) × ArrivalSet) :=
  if acc.any (fun kv => kv.1 = (entry.hour, entry.minute)) then
    acc.map (fun kv =>
      if kv.1 = (entry.hour, entry.minute) then
        (kv.1, { time := kv.2.time,
                 arrivals := kv.2.arrivals ++ [{ route := route, tripName := tripName,
                                                 location := location }] })
      else kv)
  else
    acc ++ [((entry.hour, entry.minute),
             { time := TimeOfDay.make entry.hour entry.minute,
               arrivals := [{ route := route, tripName := tripName, location := location }] })]

/-- The `optimizedArrivals` map accumulated by the nested `for` loops of
`BusArrivalPlayback.generateOptimizedArrivals` (`replayer.ts`): a fold over
every station's route-group timetables, trip timetables and timetable entries. -/
def arrivalMapOfSnapshot (stationsSnapshot : AllStationsSnapshot) :
    List ((ℚ × ℚ) × ArrivalSet) :=
  stationsSnapshot.stationDetails.foldl (fun acc stationDetails =>
    stationDetails.timetables.foldl (fun acc timetable =>
      timetable.tripTimetables.foldl (fun acc tripTimetable =>
        tripTimetable.timetable.foldl
          (insertTimetableEntry tripTimetable.route tripTimetable.tripName
            stationDetails.location)
          acc)
        acc)
      acc) []

/-- Model of `BusArrivalPlayback.generateOptimizedArrivals` from `replayer.ts`:
the map's values (taken in insertion order, as `Array.from` yields them)
sorted by time. -/
def generateOptimizedArrivals (stationsSnapshot : AllStationsSnapshot) : List ArrivalSet :=
  sortArrivalSetArray ((arrivalMapOfSnapshot stationsSnapshot).map (fun kv => kv.2))

/-- Model of `BusArrivalPlayback.cutArrivalSetsBeforeOrAtTime` from `replayer.ts`:
keep only the arrival sets strictly after `timeOfDay`. -/
def cutArrivalSetsBeforeOrAtTime (timeOfDay : TimeOfDay) (arrivalSets : List ArrivalSet) :
    List ArrivalSet :=
  arrivalSets.filter (fun arrivalSet =>
    if arrivalSet.time.hour < timeOfDay.hour then false
    else if arrivalSet.time.hour = timeOfDay.hour ∧ arrivalSet.time.minute ≤ timeOfDay.minute then
      false
    else true)

/-- Model of `BusArrivalPlayback` from `replayer.ts`. -/
structure BusArrivalPlayback where
  stationsSnapshot : AllStationsSnapshot
  currentDayTime : TimeOfDay
  optimizedArrivals : List ArrivalSet
deriving DecidableEq, Repr

/-- The `BusArrivalPlayback` constructor from `replayer.ts`. -/
def BusArrivalPlayback.make (stationsSnapshot : AllStationsSnapshot)
    (initialSimulationTime : TimeOfDay) : BusArrivalPlayback :=
  { stationsSnapshot := stationsSnapshot,
    currentDayTime := initialSimulationTime,
    optimizedArrivals :=
      cutArrivalSetsBeforeOrAtTime initialSimulationTime
        (generateOptimizedArrivals stationsSnapshot) }

/-- The drain condition of the `while (true)` loop in `BusArrivalPlayback.tick`
(`replayer.ts`): `nextArrivalSet.time.hour <= hour && nextArrivalSet.time.minute <= minute`.
Note this compares hour and minute componentwise, not chronologically. -/
def dueBy (hour minute : ℚ) (arrivalSet : ArrivalSet) : Bool :=
  decide (arrivalSet.time.hour ≤ hour ∧ arrivalSet.time.minute ≤ minute)

/-- The `while (true)` shift-and-collect loop of `BusArrivalPlayback.tick`
(`replayer.ts`), returning the drained list and the remaining queue. -/
def drainLoop (hour minute : ℚ) : List ArrivalSet → List ArrivalSet × List ArrivalSet
  | [] => ([], [])
  | nextArrivalSet :: rest =>
    if dueBy hour minute nextArrivalSet then
      let p := drainLoop hour minute rest
      (nextArrivalSet :: p.1, p.2)
    else
      ([], nextArrivalSet :: rest)

/-- Model of `BusArrivalPlayback.tick` from `replayer.ts`; returns the updated playback
state together with the drained arrival sets. -/
def BusArrivalPlayback.tick (playback : BusArrivalPlayback) (minutes : ℚ) :
    BusArrivalPlayback × List ArrivalSet :=
  let newTime := playback.currentDayTime.tick minutes
  let p := drainLoop newTime.hour newTime.minute playback.optimizedArrivals
  let newQueue :=
    if p.2.isEmpty then
      cutArrivalSetsBeforeOrAtTime newTime (generateOptimizedArrivals playback.stationsSnapshot)
    else p.2
  ({ stationsSnapshot := playback.stationsSnapshot,
     currentDayTime := newTime,
     optimizedArrivals := newQueue },
   p.1)

/-- Model of `StationSearcher.generateOptimizedStations` from `stationSearcher.ts`:
the list of (location, station) pairs in snapshot order. -/
def generateOptimizedStations (stationsSnapshot : AllStationsSnapshot) :
    List (GeographicalLocation × StationDetailsWithBusesAndTimetables) :=
  stationsSnapshot.stationDetails.map (fun station => (station.location, station))

/-- The JavaScript expression `closestDistance || Infinity` from
`StationSearcher.getClosestStation`: it evaluates to `Infinity` both when
`closestDistance` is `null` and when it is `0` (zero is falsy in JavaScript).
`Infinity` is modelled as `⊤` of `WithTop ℚ`. -/
def orInfinity (closestDistance : Option ℚ) : WithTop ℚ :=
  match closestDistance with
  | none => ⊤
  | some d => if d = 0 then ⊤ else (d : WithTop ℚ)

/-- The scan loop of `StationSearcher.getClosestStation` (`stationSearcher.ts`),
parameterized over the distance function `dist`, which stands for
`location.distanceToLeafetLatLng(targetLocation)` — the haversine great-circle
distance from a station's location to the (fixed) query point. -/
def getClosestStationLoop (dist : GeographicalLocation → ℚ)
    (pairs : List (GeographicalLocation × StationDetailsWithBusesAndTimetables)) :
    Option StationDetailsWithBusesAndTimetables × Option ℚ :=
  pairs.foldl (fun acc pair =>
    if acc.1 = none ∨ ((dist pair.1 : WithTop ℚ) < orInfinity acc.2) then
      (some pair.2, some (dist pair.1))
    else acc)
    (none, none)

/-- Model of `StationSearcher.getClosestStation` from `stationSearcher.ts`. -/
def getClosestStation (dist : GeographicalLocation → ℚ)
    (stationsSnapshot : AllStationsSnapshot) :
    Option (ℚ × StationDetailsWithBusesAndTimetables) :=
  match getClosestStationLoop dist (generateOptimizedStations stationsSnapshot) with
  | (some closestStation, some closestDistance) => some (closestDistance, closestStation)
  | _ => none

/-- Model of `degreesToRadians` from `lpp/models.ts`, over the reals. -/
noncomputable def degreesToRadians (degrees : ℝ) : ℝ :=
  degrees * Real.pi / 180

/-- Model of `Math.atan2` (the standard piecewise definition), over the reals. -/
noncomputable def atan2 (y x : ℝ) : ℝ :=
  if 0 < x then Real.arctan (y / x)
  else if x < 0 ∧ 0 ≤ y then Real.arctan (y / x) + Real.pi
  else if x < 0 ∧ y < 0 then Real.arctan (y / x) - Real.pi
  else if x = 0 ∧ 0 < y then Real.pi / 2
  else if x = 0 ∧ y < 0 then -(Real.pi / 2)
  else 0

/-- Model of `haversineDistance` from `lpp/models.ts`, over the reals (the exact
mathematical counterpart of the floating-point code). -/
noncomputable def haversineDistance (firstLatitude firstLongitude secondLatitude
    secondLongitude : ℝ) : ℝ :=
  let earthRadiusInKilometers : ℝ := 6371
  let dLat := degreesToRadians (secondLatitude - firstLatitude)
  let dLon := degreesToRadians (secondLongitude - firstLongitude)
  let a := Real.sin (dLat / 2) * Real.sin (dLat / 2)
    + Real.sin (dLon / 2) * Real.sin (dLon / 2)
      * Real.cos (degreesToRadians firstLatitude)
      * Real.cos (degreesToRadians secondLatitude)
  let c := 2 * atan2 (Real.sqrt a) (Real.sqrt (1 - a))
  earthRadiusInKilometers * c

/-- The great-circle distance of a point to itself is exactly zero (so a query
placed exactly at a station's coordinates yields distance `0` in
`getClosestStation`). -/
theorem haversineDistance_self (latitude longitude : ℝ) :
    haversineDistance latitude longitude latitude longitude = 0 := by
  unfold haversineDistance degreesToRadians atan2
  norm_num

/-- Helper: full case description of `clamp`. -/
theorem clamp_spec (value minimum maximum : ℚ) (hmm : minimum ≤ maximum) :
    (minimum ≤ clamp value minimum maximum ∧ clamp value minimum maximum ≤ maximum) ∧
    (maximum < value → clamp value minimum maximum = maximum) ∧
    (value < minimum → clamp value minimum maximum = minimum) ∧
    (minimum ≤ value → value ≤ maximum → clamp value minimum maximum = value) := by
  unfold clamp
  split_ifs with h1 h2 <;>
    refine ⟨⟨by linarith, by linarith⟩, ?_, ?_, ?_⟩ <;> intros <;> first | rfl | linarith

/-- C8: the `TimeOfDay` constructor never fails; it clamps the hour into `[1,24]`
and the minute into `[0,59]`, sending out-of-range inputs to the nearest bound
and passing in-range inputs through unchanged. -/
theorem timeOfDay_make_clamps (h m : ℚ) :
    (1 ≤ (TimeOfDay.make h m).hour ∧ (TimeOfDay.make h m).hour ≤ 24) ∧
    (0 ≤ (TimeOfDay.make h m).minute ∧ (TimeOfDay.make h m).minute ≤ 59) ∧
    (24 < h → (TimeOfDay.make h m).hour = 24) ∧
    (h < 1 → (TimeOfDay.make h m).hour = 1) ∧
    (1 ≤ h → h ≤ 24 → (TimeOfDay.make h m).hour = h) ∧
    (59 < m → (TimeOfDay.make h m).minute = 59) ∧
    (m < 0 → (TimeOfDay.make h m).minute = 0) ∧
    (0 ≤ m → m ≤ 59 → (TimeOfDay.make h m).minute = m) := by
  obtain ⟨hr1, hr2, hr3, hr4⟩ := clamp_spec h 1 24 (by norm_num)
  obtain ⟨hm1, hm2, hm3, hm4⟩ := clamp_spec m 0 59 (by norm_num)
  exact ⟨hr1, hm1, hr2, hr3, hr4, hm2, hm3, hm4⟩

/-- C8 witness: concrete out-of-range and in-range inputs. -/
theorem timeOfDay_make_clamps_witness :
    ((24 : ℚ) < 30 ∧ (TimeOfDay.make 30 (-3)).hour = 24) ∧
    ((-3 : ℚ) < 0 ∧ (TimeOfDay.make 30 (-3)).minute = 0) ∧
    ((1 : ℚ) ≤ 10 ∧ (10 : ℚ) ≤ 24 ∧ (TimeOfDay.make 10 45).hour = 10) := by
  refine ⟨⟨by norm_num, (timeOfDay_make_clamps 30 (-3)).2.2.1 (by norm_num)⟩,
          ⟨by norm_num, (timeOfDay_make_clamps 30 (-3)).2.2.2.2.2.2.1 (by norm_num)⟩,
          by norm_num, by norm_num,
          (timeOfDay_make_clamps 10 45).2.2.2.2.1 (by norm_num) (by norm_num)⟩

/-- C5: the method `elapsedSince` fails exactly when the reference time is chronologically
after `self` (hour greater, or equal hour with greater minute), and otherwise
returns `(hour - earlier.hour) * 60 + (minute - earlier.minute)`; in particular
`TimeOfDay(10,30).elapsedSince(TimeOfDay(10,0))` is 30 minutes and
`TimeOfDay(1,5).elapsedSince(TimeOfDay(24,50))` fails rather than wrapping. -/
theorem elapsedSince_spec :
    (∀ t earlier : TimeOfDay,
      ((∃ msg, t.elapsedSince earlier = .error msg) ↔
        (earlier.hour > t.hour ∨ (earlier.hour = t.hour ∧ earlier.minute > t.minute))) ∧
      (¬(earlier.hour > t.hour ∨ (earlier.hour = t.hour ∧ earlier.minute > t.minute)) →
        t.elapsedSince earlier =
          .ok { minute := (t.hour - earlier.hour) * 60 + (t.minute - earlier.minute) })) ∧
    TimeOfDay.elapsedSince { hour := 10, minute := 30 } { hour := 10, minute := 0 } =
      .ok { minute := 30 } ∧
    (∃ msg, TimeOfDay.elapsedSince { hour := 1, minute := 5 } { hour := 24, minute := 50 } =
      .error msg) := by
  refine ⟨fun t earlier => ?_, by norm_num [TimeOfDay.elapsedSince],
    ⟨"Invalid elapsedSince call: preceedingTime comes after us.",
      by norm_num [TimeOfDay.elapsedSince]⟩⟩
  unfold TimeOfDay.elapsedSince
  split_ifs with h1 h2
  · exact ⟨⟨fun _ => Or.inl h1, fun _ => ⟨_, rfl⟩⟩, fun hc => absurd (Or.inl h1) hc⟩
  · exact ⟨⟨fun _ => Or.inr ⟨h2.1, h2.2⟩, fun _ => ⟨_, rfl⟩⟩, fun hc => absurd (Or.inr h2) hc⟩
  · refine ⟨⟨fun hex => ?_, fun hc => ?_⟩, fun _ => rfl⟩
    · obtain ⟨msg, hmsg⟩ := hex
      exact absurd hmsg (by simp)
    · rcases hc with hc | hc
      · exact absurd hc h1
      · exact absurd hc h2

/-- C5 witness: the general characterization applied at `(10,30)` / `(10,0)`. -/
theorem elapsedSince_spec_witness :
    TimeOfDay.elapsedSince { hour := 10, minute := 30 } { hour := 10, minute := 0 } =
      .ok { minute := 30 } := by
  have h := (elapsedSince_spec.1 { hour := 10, minute := 30 } { hour := 10, minute := 0 }).2
    (by norm_num)
  rw [h]
  norm_num

/-- C10 (implicit): when both clocks have whole-number hours (the documented
`TimeOfDay` invariant) and minutes in `[0,60)`, a normally-returning
`elapsedSince` yields a non-negative minute count. -/
theorem elapsedSince_nonneg (t earlier : TimeOfDay)
    (hth : ∃ n : ℤ, t.hour = n) (heh : ∃ n : ℤ, earlier.hour = n)
    (htm0 : 0 ≤ t.minute) (htm1 : t.minute < 60)
    (hem0 : 0 ≤ earlier.minute) (hem1 : earlier.minute < 60)
    (r : RelativeMinutes) (hok : t.elapsedSince earlier = .ok r) :
    0 ≤ r.minute := by
  obtain ⟨tn, htn⟩ := hth
  obtain ⟨en, hen⟩ := heh
  unfold TimeOfDay.elapsedSince at hok
  split_ifs at hok with h1 h2
  have hr : r.minute = (t.hour - earlier.hour) * 60 + (t.minute - earlier.minute) := by
    injection hok with hinj
    rw [← hinj]
  rw [hr]
  push_neg at h1
  by_cases hhe : earlier.hour = t.hour
  · have h2m := h2
    push_neg at h2m
    have := h2m hhe
    rw [hhe]
    linarith
  · have hlt : earlier.hour < t.hour := lt_of_le_of_ne h1 hhe
    have hint : en < tn := by
      rw [htn, hen] at hlt
      exact_mod_cast hlt
    have hone : (en : ℚ) + 1 ≤ (tn : ℚ) := by
      have h11 : en + 1 ≤ tn := hint
      exact_mod_cast h11
    rw [htn, hen]
    linarith

/-- C10 witness: a concrete normal return with hour difference one. -/
theorem elapsedSince_nonneg_witness :
    0 ≤ (RelativeMinutes.mk ((11 - 10) * 60 + (5 - 50))).minute := by
  refine elapsedSince_nonneg { hour := 11, minute := 5 } { hour := 10, minute := 50 }
    ⟨11, by norm_num⟩ ⟨10, by norm_num⟩ (by norm_num) (by norm_num) (by norm_num) (by norm_num)
    _ ?_
  norm_num [TimeOfDay.elapsedSince]

/-- C4: advancing hour 24, minute 59 by one minute rolls over to hour 1,
minute 0; in general, for in-range clocks and non-negative (possibly
fractional) deltas, `tick` adds the delta to the minute counter and
renormalizes: the result has minute in `[0,60)`, hour in `[1,25)`, and differs
from the un-normalized sum by a whole number of 1440-minute days, so a single
tick can cross several hour or day boundaries. -/
theorem timeOfDay_tick_spec :
    TimeOfDay.tick { hour := 24, minute := 59 } 1 = { hour := 1, minute := 0 } ∧
    ∀ (t : TimeOfDay) (delta : ℚ), 1 ≤ t.hour → t.hour ≤ 24 →
      0 ≤ t.minute → t.minute < 60 → 0 ≤ delta →
      (1 ≤ (t.tick delta).hour ∧ (t.tick delta).hour < 25 ∧
       0 ≤ (t.tick delta).minute ∧ (t.tick delta).minute < 60 ∧
       ∃ k : ℕ, t.hour * 60 + t.minute + delta =
         (t.tick delta).hour * 60 + (t.tick delta).minute + 1440 * k) := by
  constructor
  · have h1 : reflowMinuteLoop 24 (59 + 1) = (25, 0) := by
      rw [reflowMinuteLoop_step (by norm_num)]
      rw [show (24 : ℚ) + 1 = 25 by norm_num, show (59 : ℚ) + 1 - 60 = 0 by norm_num]
      exact reflowMinuteLoop_done (by norm_num)
    have h2 : reflowHourLoop 25 = 1 := by
      rw [reflowHourLoop_step (by norm_num)]
      rw [show (25 : ℚ) - 24 = 1 by norm_num]
      exact reflowHourLoop_done (by norm_num)
    unfold TimeOfDay.tick TimeOfDay.reflowUnits
    simp only [h1, h2]
  · intro t delta ht1 ht2 ht3 ht4 hd
    obtain ⟨j, hj, hjlt, hjnn⟩ := reflowMinuteLoop_spec t.hour (t.minute + delta)
    obtain ⟨k, hk, hklt, hkge⟩ := reflowHourLoop_spec (t.hour + j)
    have htick : t.tick delta =
        { hour := t.hour + j - 24 * k, minute := t.minute + delta - 60 * j } := by
      unfold TimeOfDay.tick TimeOfDay.reflowUnits
      simp only [hj, hk]
    have hh : (t.tick delta).hour = t.hour + j - 24 * k := by rw [htick]
    have hm : (t.tick delta).minute = t.minute + delta - 60 * j := by rw [htick]
    have hj0 : (0 : ℚ) ≤ (j : ℚ) := by exact_mod_cast Nat.zero_le j
    have hmn : 0 ≤ t.minute + delta - 60 * j := hjnn (by linarith)
    refine ⟨?_, ?_, ?_, ?_, ⟨k, ?_⟩⟩
    · rw [hh]
      exact hkge (by linarith)
    · rw [hh]
      linarith
    · rw [hm]
      exact hmn
    · rw [hm]
      linarith
    · rw [hh, hm]
      ring

/-- C4 witness: the general renormalization applied to a 100-minute tick. -/
theorem timeOfDay_tick_spec_witness :
    (1 : ℚ) ≤ 2 ∧ (2 : ℚ) ≤ 24 ∧ (0 : ℚ) ≤ 30 ∧ (30 : ℚ) < 60 ∧ (0 : ℚ) ≤ 100 ∧
    1 ≤ (TimeOfDay.tick { hour := 2, minute := 30 } 100).hour := by
  refine ⟨by norm_num, by norm_num, by norm_num, by norm_num, by norm_num, ?_⟩
  exact (timeOfDay_tick_spec.2 { hour := 2, minute := 30 } 100 (by norm_num) (by norm_num)
    (by norm_num) (by norm_num) (by norm_num)).1

/-- The drain loop returns exactly the longest satisfying front run of the
queue and the corresponding remainder. -/
theorem drainLoop_eq (hour minute : ℚ) (l : List ArrivalSet) :
    drainLoop hour minute l =
      (l.takeWhile (dueBy hour minute), l.dropWhile (dueBy hour minute)) := by
  induction l with
  | nil => rfl
  | cons a l ih =>
    by_cases h : dueBy hour minute a <;>
      simp [drainLoop, List.takeWhile_cons, List.dropWhile_cons, h, ih]

/-- Membership in the cut queue: exactly the original members strictly after
the cut time (chronologically). -/
theorem mem_cut_iff (t : TimeOfDay) (l : List ArrivalSet) (a : ArrivalSet) :
    a ∈ cutArrivalSetsBeforeOrAtTime t l ↔ a ∈ l ∧ t.chronLT a.time := by
  unfold cutArrivalSetsBeforeOrAtTime TimeOfDay.chronLT
  rw [List.mem_filter]
  constructor
  · rintro ⟨hmem, hcond⟩
    refine ⟨hmem, ?_⟩
    split_ifs at hcond with h1 h2
    push_neg at h1
    by_cases he : a.time.hour = t.hour
    · have h2m := h2
      push_neg at h2m
      exact Or.inr ⟨he.symm, h2m he⟩
    · exact Or.inl (lt_of_le_of_ne h1 (fun hc => he hc.symm))
  · rintro ⟨hmem, hafter⟩
    refine ⟨hmem, ?_⟩
    split_ifs with h1 h2
    · exfalso
      rcases hafter with h | ⟨he, -⟩
      · exact lt_asymm h h1
      · rw [he] at h1
        exact lt_irrefl _ h1
    · exfalso
      rcases hafter with h | ⟨he, hm⟩
      · rw [h2.1] at h
        exact lt_irrefl _ h
      · exact absurd h2.2 (not_le.2 hm)
    · rfl

/-- The cut queue is a sublist of its input, so cutting preserves sortedness. -/
theorem cut_sorted (t : TimeOfDay) (l : List ArrivalSet)
    (h : List.Sorted arrivalSetLE l) :
    List.Sorted arrivalSetLE (cutArrivalSetsBeforeOrAtTime t l) :=
  h.sublist (List.filter_sublist l)

/-- The generated arrival queue is always sorted by the comparator preorder. -/
theorem generate_sorted (stationsSnapshot : AllStationsSnapshot) :
    List.Sorted arrivalSetLE (generateOptimizedArrivals stationsSnapshot) :=
  List.sorted_insertionSort arrivalSetLE _

/-- A one-station snapshot whose only timetable entry is 5:30. -/
def snapshotFive30 : AllStationsSnapshot :=
  { stationDetails := [
      { stationCode := "600011", internalStationId := 1, name := "Bavarski dvor",
        location := { latitude := 46.05, longitude := 14.50 },
        timetables := [
          { tripTimetables := [
              { route := "6", tripName := "trip", timetable := [ { hour := 5, minute := 30 } ] } ] } ] } ] }

/-- A one-station snapshot whose only timetable entry is 5:00 (the end-to-end
scenario of the spec). -/
def snapshotFive0 : AllStationsSnapshot :=
  { stationDetails := [
      { stationCode := "600011", internalStationId := 1, name := "Bavarski dvor",
        location := { latitude := 46.05, longitude := 14.50 },
        timetables := [
          { tripTimetables := [
              { route := "6", tripName := "trip", timetable := [ { hour := 5, minute := 0 } ] } ] } ] } ] }

/-- A two-station snapshot where each station has one trip arriving at 8:15. -/
def snapshotTwo815 : AllStationsSnapshot :=
  { stationDetails := [
      { stationCode := "600011", internalStationId := 1, name := "Bavarski dvor",
        location := { latitude := 46.05, longitude := 14.50 },
        timetables := [
          { tripTimetables := [
              { route := "6", tripName := "tripA", timetable := [ { hour := 8, minute := 15 } ] } ] } ] },
      { stationCode := "600012", internalStationId := 2, name := "Ajdovscina",
        location := { latitude := 46.06, longitude := 14.51 },
        timetables := [
          { tripTimetables := [
              { route := "2", tripName := "tripB", timetable := [ { hour := 8, minute := 15 } ] } ] } ] } ] }

/-- A one-station snapshot with entries at 7:10, 7:11 and 7:14. -/
def snapshotThree : AllStationsSnapshot :=
  { stationDetails := [
      { stationCode := "600011", internalStationId := 1, name := "Bavarski dvor",
        location := { latitude := 46.05, longitude := 14.50 },
        timetables := [
          { tripTimetables := [
              { route := "6", tripName := "trip",
                timetable := [ { hour := 7, minute := 10 }, { hour := 7, minute := 11 },
                               { hour := 7, minute := 14 } ] } ] } ] } ] }




/-- The single 5:30 arrival batch generated from `snapshotFive30`. -/
def batchFive30 : ArrivalSet :=
  { time := { hour := 5, minute := 30 },
    arrivals := [ { route := "6", tripName := "trip",
                    location := { latitude := 46.05, longitude := 14.50 } } ] }

/-- Evaluation of `TimeOfDay.tick` when no hour boundary is crossed. -/
theorem tick_eval_no_carry (h m d : ℚ) (hlt : m + d < 60) (hh : h < 25) :
    TimeOfDay.tick { hour := h, minute := m } d = { hour := h, minute := m + d } := by
  unfold TimeOfDay.tick TimeOfDay.reflowUnits
  simp only [reflowMinuteLoop_done hlt, reflowHourLoop_done hh]

/-- Evaluation of `TimeOfDay.tick` when exactly one hour boundary is crossed. -/
theorem tick_eval_one_carry (h m d : ℚ) (h60 : 60 ≤ m + d) (hlt : m + d - 60 < 60)
    (hh : h + 1 < 25) :
    TimeOfDay.tick { hour := h, minute := m } d = { hour := h + 1, minute := m + d - 60 } := by
  unfold TimeOfDay.tick TimeOfDay.reflowUnits
  simp only [reflowMinuteLoop_step h60, reflowMinuteLoop_done hlt, reflowHourLoop_done hh]

theorem tick_5_0_70 :
    TimeOfDay.tick { hour := 5, minute := 0 } 70 = { hour := 6, minute := 10 } := by
  rw [tick_eval_one_carry 5 0 70 (by norm_num) (by norm_num) (by norm_num)]
  simp only [TimeOfDay.mk.injEq]
  norm_num

theorem tick_6_10_25 :
    TimeOfDay.tick { hour := 6, minute := 10 } 25 = { hour := 6, minute := 35 } := by
  rw [tick_eval_no_carry 6 10 25 (by norm_num) (by norm_num)]
  simp only [TimeOfDay.mk.injEq]
  norm_num

theorem tick_5_0_35 :
    TimeOfDay.tick { hour := 5, minute := 0 } 35 = { hour := 5, minute := 35 } := by
  rw [tick_eval_no_carry 5 0 35 (by norm_num) (by norm_num)]
  simp only [TimeOfDay.mk.injEq]
  norm_num

theorem tick_4_59_1 :
    TimeOfDay.tick { hour := 4, minute := 59 } 1 = { hour := 5, minute := 0 } := by
  rw [tick_eval_one_carry 4 59 1 (by norm_num) (by norm_num) (by norm_num)]
  simp only [TimeOfDay.mk.injEq]
  norm_num

theorem tick_5_0_1 :
    TimeOfDay.tick { hour := 5, minute := 0 } 1 = { hour := 5, minute := 1 } := by
  rw [tick_eval_no_carry 5 0 1 (by norm_num) (by norm_num)]
  simp only [TimeOfDay.mk.injEq]
  norm_num

theorem tick_7_9_5 :
    TimeOfDay.tick { hour := 7, minute := 9 } 5 = { hour := 7, minute := 14 } := by
  rw [tick_eval_no_carry 7 9 5 (by norm_num) (by norm_num)]
  simp only [TimeOfDay.mk.injEq]
  norm_num

/-- Unfolding of `BusArrivalPlayback.tick`: the clock advances, the longest due
front run of the queue is returned, and the queue becomes the remainder —
regenerated from the snapshot when that remainder is empty. -/
theorem tick_unfold (p : BusArrivalPlayback) (minutes : ℚ) :
    p.tick minutes =
      ({ stationsSnapshot := p.stationsSnapshot,
         currentDayTime := p.currentDayTime.tick minutes,
         optimizedArrivals :=
           if (p.optimizedArrivals.dropWhile
               (dueBy (p.currentDayTime.tick minutes).hour
                 (p.currentDayTime.tick minutes).minute)).isEmpty then
             cutArrivalSetsBeforeOrAtTime (p.currentDayTime.tick minutes)
               (generateOptimizedArrivals p.stationsSnapshot)
           else
             p.optimizedArrivals.dropWhile
               (dueBy (p.currentDayTime.tick minutes).hour
                 (p.currentDayTime.tick minutes).minute) },
       p.optimizedArrivals.takeWhile
         (dueBy (p.currentDayTime.tick minutes).hour
           (p.currentDayTime.tick minutes).minute)) := by
  simp only [BusArrivalPlayback.tick, drainLoop_eq]

/-- Every element of a `takeWhile` front run satisfies the predicate. -/
theorem mem_takeWhile_pred {p : ArrivalSet → Bool} :
    ∀ {l : List ArrivalSet} {a : ArrivalSet}, a ∈ l.takeWhile p → p a = true := by
  intro l
  induction l with
  | nil =>
    intro a h
    simp [List.takeWhile] at h
  | cons x xs ih =>
    intro a h
    rw [List.takeWhile_cons] at h
    by_cases hx : p x
    · rw [if_pos hx] at h
      rcases List.mem_cons.1 h with rfl | h2
      · exact hx
      · exact ih h2
    · rw [if_neg hx] at h
      simp at h

/-- A batch passing the componentwise drain test is chronologically at or
before the clock. -/
theorem dueBy_chronLE {t : TimeOfDay} {a : ArrivalSet}
    (h : dueBy t.hour t.minute a = true) : a.time.chronLE t := by
  unfold dueBy at h
  rw [decide_eq_true_iff] at h
  unfold TimeOfDay.chronLE
  rcases eq_or_lt_of_le h.1 with he | hl
  · exact Or.inr ⟨he, h.2⟩
  · exact Or.inl hl

/-- Chronological ≤ in one direction excludes strict chronological > in the
other. -/
theorem chronLE_not_chronLT {a b : TimeOfDay} (h : a.chronLE b) : ¬ b.chronLT a := by
  unfold TimeOfDay.chronLE at h
  unfold TimeOfDay.chronLT
  rintro (hlt | ⟨he, hm⟩)
  · rcases h with h | ⟨he2, -⟩
    · exact lt_asymm h hlt
    · rw [he2] at hlt
      exact lt_irrefl _ hlt
  · rcases h with h | ⟨he2, hm2⟩
    · rw [he] at h
      exact lt_irrefl _ h
    · exact absurd hm (not_lt.2 hm2)

/-- The three batches generated from `snapshotThree`. -/
def batchSeven10 : ArrivalSet :=
  { time := { hour := 7, minute := 10 },
    arrivals := [ { route := "6", tripName := "trip",
                    location := { latitude := 46.05, longitude := 14.50 } } ] }

def batchSeven11 : ArrivalSet :=
  { time := { hour := 7, minute := 11 },
    arrivals := [ { route := "6", tripName := "trip",
                    location := { latitude := 46.05, longitude := 14.50 } } ] }

def batchSeven14 : ArrivalSet :=
  { time := { hour := 7, minute := 14 },
    arrivals := [ { route := "6", tripName := "trip",
                    location := { latitude := 46.05, longitude := 14.50 } } ] }

/-- C1 counterexample: with the queue holding only the 5:30 batch and a
70-minute tick advancing the clock from 5:00 to 6:10, the batch is
chronologically ≤ the new clock, yet `tick` returns nothing and leaves it in
the queue (the drain test compares hour and minute componentwise, and
30 ≤ 10 fails). -/
theorem tick_chronLE_counterexample :
    TimeOfDay.chronLE { hour := 5, minute := 30 } { hour := 6, minute := 10 } ∧
    (BusArrivalPlayback.make snapshotFive30 { hour := 5, minute := 0 }).optimizedArrivals =
      [batchFive30] ∧
    ((BusArrivalPlayback.make snapshotFive30 { hour := 5, minute := 0 }).tick 70).1.currentDayTime =
      { hour := 6, minute := 10 } ∧
    ((BusArrivalPlayback.make snapshotFive30 { hour := 5, minute := 0 }).tick 70).2 = [] ∧
    ((BusArrivalPlayback.make snapshotFive30 { hour := 5, minute := 0 }).tick 70).1.optimizedArrivals =
      [batchFive30] := by
  have hev : (BusArrivalPlayback.make snapshotFive30 { hour := 5, minute := 0 }).tick 70 =
      ({ stationsSnapshot := snapshotFive30, currentDayTime := { hour := 6, minute := 10 },
         optimizedArrivals := [batchFive30] }, []) := by
    rw [tick_unfold]
    simp only [BusArrivalPlayback.make, tick_5_0_70]
    rfl
  refine ⟨?_, by rfl, ?_, ?_, ?_⟩
  · unfold TimeOfDay.chronLE
    left
    norm_num
  · rw [hev]
  · rw [hev]
  · rw [hev]

/-- C1 (amended): the method `tick` first advances the internal clock by the delta, then
removes from the front of the queue — and returns, in ascending (hour major,
minute minor) order — the longest front run of batches whose hour AND minute
are each at most the new clock's (a componentwise test rather than the full
chronological one; the two agree for batches sharing the new clock's hour).
Every returned batch is chronologically ≤ the new clock, and the first
remaining batch, if any, fails the componentwise test.  In particular, with
batches at 7:10, 7:11 and 7:14 and a 5-minute tick from 7:09 crossing all
three, all three are returned in ascending order and removed. -/
theorem tick_drains_componentwise :
    (((BusArrivalPlayback.make snapshotThree { hour := 7, minute := 9 }).tick 5).2 =
        [batchSeven10, batchSeven11, batchSeven14] ∧
      ((BusArrivalPlayback.make snapshotThree
          { hour := 7, minute := 9 }).tick 5).1.optimizedArrivals = []) ∧
    ∀ (p : BusArrivalPlayback) (minutes : ℚ),
      List.Sorted arrivalSetLE p.optimizedArrivals →
      ((p.tick minutes).1.currentDayTime = p.currentDayTime.tick minutes ∧
       (p.tick minutes).2 ++
           p.optimizedArrivals.dropWhile
             (dueBy (p.currentDayTime.tick minutes).hour
               (p.currentDayTime.tick minutes).minute) =
         p.optimizedArrivals ∧
       (∀ a ∈ (p.tick minutes).2,
         dueBy (p.currentDayTime.tick minutes).hour
             (p.currentDayTime.tick minutes).minute a = true ∧
           a.time.chronLE (p.currentDayTime.tick minutes)) ∧
       List.Sorted arrivalSetLE (p.tick minutes).2 ∧
       ∀ b, (p.optimizedArrivals.dropWhile
           (dueBy (p.currentDayTime.tick minutes).hour
             (p.currentDayTime.tick minutes).minute)).head? = some b →
         dueBy (p.currentDayTime.tick minutes).hour
           (p.currentDayTime.tick minutes).minute b = false) := by
  constructor
  · have hev : (BusArrivalPlayback.make snapshotThree { hour := 7, minute := 9 }).tick 5 =
        ({ stationsSnapshot := snapshotThree, currentDayTime := { hour := 7, minute := 14 },
           optimizedArrivals := [] },
         [batchSeven10, batchSeven11, batchSeven14]) := by
      rw [tick_unfold]
      simp only [BusArrivalPlayback.make, tick_7_9_5]
      rfl
    exact ⟨by rw [hev], by rw [hev]⟩
  · intro p minutes hsorted
    rw [tick_unfold]
    refine ⟨rfl, List.takeWhile_append_dropWhile _ _, ?_, ?_, ?_⟩
    · intro a ha
      have hd := mem_takeWhile_pred ha
      exact ⟨hd, dueBy_chronLE hd⟩
    · exact hsorted.sublist (List.takeWhile_sublist _)
    · intro b hb
      have hmatch := List.head?_dropWhile_not
        (dueBy (p.currentDayTime.tick minutes).hour (p.currentDayTime.tick minutes).minute)
        p.optimizedArrivals
      rw [hb] at hmatch
      exact hmatch

/-- C1 witness: the amended characterization applied to the 7:09 + 5-minute
scenario. -/
theorem tick_drains_componentwise_witness :
    List.Sorted arrivalSetLE
      (BusArrivalPlayback.make snapshotThree { hour := 7, minute := 9 }).optimizedArrivals ∧
    ((BusArrivalPlayback.make snapshotThree { hour := 7, minute := 9 }).tick 5).1.currentDayTime =
      (BusArrivalPlayback.make snapshotThree { hour := 7, minute := 9 }).currentDayTime.tick 5 := by
  have hs : List.Sorted arrivalSetLE
      (BusArrivalPlayback.make snapshotThree { hour := 7, minute := 9 }).optimizedArrivals := by
    decide
  exact ⟨hs, (tick_drains_componentwise.2 _ 5 hs).1⟩

/-- C2 counterexample: after a 70-minute tick from 5:00 the clock is 6:10, yet
the queue still holds the 5:30 batch, which is not strictly after the clock —
the strictly-after part of the claimed invariant is not preserved by `tick`. -/
theorem queue_future_counterexample :
    ((BusArrivalPlayback.make snapshotFive30 { hour := 5, minute := 0 }).tick 70).1.currentDayTime =
      { hour := 6, minute := 10 } ∧
    ((BusArrivalPlayback.make snapshotFive30 { hour := 5, minute := 0 }).tick 70).1.optimizedArrivals =
      [batchFive30] ∧
    batchFive30.time = { hour := 5, minute := 30 } ∧
    ¬ TimeOfDay.chronLT { hour := 6, minute := 10 } { hour := 5, minute := 30 } := by
  have hev : (BusArrivalPlayback.make snapshotFive30 { hour := 5, minute := 0 }).tick 70 =
      ({ stationsSnapshot := snapshotFive30, currentDayTime := { hour := 6, minute := 10 },
         optimizedArrivals := [batchFive30] }, []) := by
    rw [tick_unfold]
    simp only [BusArrivalPlayback.make, tick_5_0_70]
    rfl
  refine ⟨by rw [hev], by rw [hev], by rfl, ?_⟩
  unfold TimeOfDay.chronLT
  rintro (h | ⟨h, -⟩) <;> norm_num at h

/-- C2 (amended): the queue is always sorted ascending by (hour major, minute
minor): construction sorts it and every `tick` keeps it sorted.  Construction
discards every batch at or before the initial time, so right after
construction the queue holds only batches strictly after the clock, and the
same holds right after an in-tick regeneration — but an ordinary `tick` does
not preserve the strictly-after property in general. -/
theorem playback_queue_invariants :
    (∀ (snapshot : AllStationsSnapshot) (t : TimeOfDay),
      List.Sorted arrivalSetLE (BusArrivalPlayback.make snapshot t).optimizedArrivals ∧
      ∀ a ∈ (BusArrivalPlayback.make snapshot t).optimizedArrivals, t.chronLT a.time) ∧
    (∀ (p : BusArrivalPlayback) (minutes : ℚ),
      List.Sorted arrivalSetLE p.optimizedArrivals →
      List.Sorted arrivalSetLE (p.tick minutes).1.optimizedArrivals) ∧
    (∀ (p : BusArrivalPlayback) (minutes : ℚ),
      (p.optimizedArrivals.dropWhile
        (dueBy (p.currentDayTime.tick minutes).hour
          (p.currentDayTime.tick minutes).minute)).isEmpty = true →
      ∀ a ∈ (p.tick minutes).1.optimizedArrivals,
        ((p.tick minutes).1.currentDayTime).chronLT a.time) := by
  refine ⟨?_, ?_, ?_⟩
  · intro snapshot t
    constructor
    · exact cut_sorted t _ (generate_sorted snapshot)
    · intro a ha
      exact ((mem_cut_iff t _ a).1 ha).2
  · intro p minutes hsorted
    rw [tick_unfold]
    by_cases hemp : (p.optimizedArrivals.dropWhile
        (dueBy (p.currentDayTime.tick minutes).hour
          (p.currentDayTime.tick minutes).minute)).isEmpty
    · rw [if_pos hemp]
      exact cut_sorted _ _ (generate_sorted _)
    · rw [if_neg hemp]
      exact hsorted.sublist (List.dropWhile_sublist _)
  · intro p minutes hemp a ha
    rw [tick_unfold] at ha ⊢
    rw [if_pos hemp] at ha
    exact ((mem_cut_iff _ _ a).1 ha).2

/-- C2 witness: the preservation clauses applied to the 5:00 playback over
`snapshotFive30` with a 70-minute tick. -/
theorem playback_queue_invariants_witness :
    List.Sorted arrivalSetLE
      (BusArrivalPlayback.make snapshotFive30 { hour := 5, minute := 0 }).optimizedArrivals ∧
    List.Sorted arrivalSetLE
      ((BusArrivalPlayback.make snapshotFive30 { hour := 5, minute := 0 }).tick 70).1.optimizedArrivals := by
  have hs : List.Sorted arrivalSetLE
      (BusArrivalPlayback.make snapshotFive30 { hour := 5, minute := 0 }).optimizedArrivals := by
    decide
  exact ⟨hs, playback_queue_invariants.2.1 _ 70 hs⟩

/-- C3 counterexample: starting from 5:00 over the 5:30-only snapshot, a
70-minute tick leaves the stale 5:30 batch in the queue (clock 6:10); the next
25-minute tick (clock 6:35) drains it, empties the queue and regenerates — but
the batch it returns was already due before that tick started (5:30 is not
strictly after 6:10), contradicting the claim that the returned list holds
only batches due within that tick's delta. -/
theorem tick_regeneration_counterexample :
    ((BusArrivalPlayback.make snapshotFive30 { hour := 5, minute := 0 }).tick 70).1.currentDayTime =
      { hour := 6, minute := 10 } ∧
    ((((BusArrivalPlayback.make snapshotFive30
        { hour := 5, minute := 0 }).tick 70).1).tick 25).2 = [batchFive30] ∧
    ((((BusArrivalPlayback.make snapshotFive30
        { hour := 5, minute := 0 }).tick 70).1).tick 25).1.optimizedArrivals = [] ∧
    batchFive30.time = { hour := 5, minute := 30 } ∧
    ¬ TimeOfDay.chronLT { hour := 6, minute := 10 } { hour := 5, minute := 30 } := by
  have hev : (BusArrivalPlayback.make snapshotFive30 { hour := 5, minute := 0 }).tick 70 =
      ({ stationsSnapshot := snapshotFive30, currentDayTime := { hour := 6, minute := 10 },
         optimizedArrivals := [batchFive30] }, []) := by
    rw [tick_unfold]
    simp only [BusArrivalPlayback.make, tick_5_0_70]
    rfl
  have hev2 : ({ stationsSnapshot := snapshotFive30,
                 currentDayTime := { hour := 6, minute := 10 },
                 optimizedArrivals := [batchFive30] } : BusArrivalPlayback).tick 25 =
      ({ stationsSnapshot := snapshotFive30, currentDayTime := { hour := 6, minute := 35 },
         optimizedArrivals := [] }, [batchFive30]) := by
    rw [tick_unfold]
    simp only [tick_6_10_25]
    rfl
  refine ⟨by rw [hev], ?_, ?_, by rfl, ?_⟩
  · rw [hev]
    simp only []
    rw [hev2]
  · rw [hev]
    simp only []
    rw [hev2]
  · unfold TimeOfDay.chronLT
    rintro (h | ⟨h, -⟩) <;> norm_num at h

/-- C3 (amended): if the drain leaves the queue empty, the same `tick` call
regenerates it from the full arrival index of the unchanged snapshot, filtered
to batches strictly after the new clock; the returned list consists only of
batches drained from the pre-existing queue — each chronologically ≤ the new
clock — and never contains any batch of the freshly regenerated queue (though
it may include batches that were already due before this tick's delta began:
see the counterexample). -/
theorem tick_regenerates (p : BusArrivalPlayback) (minutes : ℚ)
    (hempty : p.optimizedArrivals.dropWhile
        (dueBy (p.currentDayTime.tick minutes).hour
          (p.currentDayTime.tick minutes).minute) = []) :
    (p.tick minutes).1.stationsSnapshot = p.stationsSnapshot ∧
    (p.tick minutes).1.optimizedArrivals =
      cutArrivalSetsBeforeOrAtTime (p.currentDayTime.tick minutes)
        (generateOptimizedArrivals p.stationsSnapshot) ∧
    ∀ a ∈ (p.tick minutes).2,
      a.time.chronLE (p.currentDayTime.tick minutes) ∧
      a ∉ (p.tick minutes).1.optimizedArrivals := by
  rw [tick_unfold]
  rw [hempty]
  simp only [List.isEmpty_nil, if_true]
  refine ⟨trivial, trivial, ?_⟩
  intro a ha
  have hd := mem_takeWhile_pred ha
  refine ⟨dueBy_chronLE hd, ?_⟩
  intro hmem
  have hafter := ((mem_cut_iff _ _ a).1 hmem).2
  exact chronLE_not_chronLT (dueBy_chronLE hd) hafter

/-- C3 witness: a 35-minute tick from 5:00 over the 5:30-only snapshot drains
the whole queue, triggering regeneration in the same call. -/
theorem tick_regenerates_witness :
    ((BusArrivalPlayback.make snapshotFive30
        { hour := 5, minute := 0 }).optimizedArrivals.dropWhile
      (dueBy ((BusArrivalPlayback.make snapshotFive30
          { hour := 5, minute := 0 }).currentDayTime.tick 35).hour
        ((BusArrivalPlayback.make snapshotFive30
          { hour := 5, minute := 0 }).currentDayTime.tick 35).minute) = []) ∧
    ((BusArrivalPlayback.make snapshotFive30 { hour := 5, minute := 0 }).tick 35).1.stationsSnapshot =
      (BusArrivalPlayback.make snapshotFive30 { hour := 5, minute := 0 }).stationsSnapshot := by
  have hd : (BusArrivalPlayback.make snapshotFive30
      { hour := 5, minute := 0 }).optimizedArrivals.dropWhile
      (dueBy ((BusArrivalPlayback.make snapshotFive30
          { hour := 5, minute := 0 }).currentDayTime.tick 35).hour
        ((BusArrivalPlayback.make snapshotFive30
          { hour := 5, minute := 0 }).currentDayTime.tick 35).minute) = [] := by
    simp only [BusArrivalPlayback.make, tick_5_0_35]
    rfl
  exact ⟨hd, (tick_regenerates _ 35 hd).1⟩

/-- C7: end-to-end scenario.  From the one-station snapshot with a single 5:00
timetable entry at location (46.05, 14.50), constructing playback at 4:59 and
ticking one minute returns exactly one batch at 5:00 holding one arrival event
at that location (and empties the queue, the regeneration filter excluding the
just-reached 5:00 batch); a second one-minute tick returns an empty list. -/
theorem endToEnd_scenario :
    (BusArrivalPlayback.make snapshotFive0 { hour := 4, minute := 59 }).tick 1 =
      ({ stationsSnapshot := snapshotFive0,
         currentDayTime := { hour := 5, minute := 0 },
         optimizedArrivals := [] },
       [ { time := { hour := 5, minute := 0 },
           arrivals := [ { route := "6", tripName := "trip",
                           location := { latitude := 46.05, longitude := 14.50 } } ] } ]) ∧
    ({ stationsSnapshot := snapshotFive0,
       currentDayTime := { hour := 5, minute := 0 },
       optimizedArrivals := [] } : BusArrivalPlayback).tick 1 =
      ({ stationsSnapshot := snapshotFive0,
         currentDayTime := { hour := 5, minute := 1 },
         optimizedArrivals := [] },
       []) := by
  constructor
  · rw [tick_unfold]
    simp only [BusArrivalPlayback.make, tick_4_59_1]
    rfl
  · rw [tick_unfold]
    simp only [tick_5_0_1]
    rfl

/-- The data-model range invariant on a timetable entry (hour in `[1,24]`,
minute in `[0,59]`). -/
def entryInRange (entry : TimetableEntry) : Prop :=
  1 ≤ entry.hour ∧ entry.hour ≤ 24 ∧ 0 ≤ entry.minute ∧ entry.minute ≤ 59

instance : DecidablePred entryInRange := by
  intro entry
  unfold entryInRange
  infer_instance

/-- All timetable entries of a snapshot are in range. -/
def snapshotEntriesInRange (snapshot : AllStationsSnapshot) : Prop :=
  ∀ station ∈ snapshot.stationDetails, ∀ timetable ∈ station.timetables,
    ∀ tripTimetable ∈ timetable.tripTimetables, ∀ entry ∈ tripTimetable.timetable,
      entryInRange entry

instance : DecidablePred snapshotEntriesInRange := by
  intro snapshot
  unfold snapshotEntriesInRange
  infer_instance

/-- Invariant of the accumulated arrival map: keys are pairwise distinct, and
each value's timestamp is the (clamped) `TimeOfDay` of its in-range key. -/
def arrivalMapInv (m : List ((ℚ × ℚ) × ArrivalSet)) : Prop :=
  List.Pairwise (fun kv kv' => kv.1 ≠ kv'.1) m ∧
  ∀ kv ∈ m, kv.2.time = TimeOfDay.make kv.1.1 kv.1.2 ∧
    (1 ≤ kv.1.1 ∧ kv.1.1 ≤ 24 ∧ 0 ≤ kv.1.2 ∧ kv.1.2 ≤ 59)

/-- Inserting one in-range timetable entry preserves the map invariant. -/
theorem insertTimetableEntry_inv (route tripName : String) (loc : GeographicalLocation)
    (acc : List ((ℚ × ℚ) × ArrivalSet)) (entry : TimetableEntry)
    (hrange : entryInRange entry) (h : arrivalMapInv acc) :
    arrivalMapInv (insertTimetableEntry route tripName loc acc entry) := by
  obtain ⟨hpw, hval⟩ := h
  unfold insertTimetableEntry
  split_ifs with hhas
  · constructor
    · refine List.Pairwise.map _ ?_ hpw
      intro a b hab
      by_cases ha : a.1 = (entry.hour, entry.minute) <;>
        by_cases hb2 : b.1 = (entry.hour, entry.minute) <;>
          simp only [ha, hb2, if_true, if_false, if_pos, if_neg, not_false_iff] <;>
            simp_all
    · intro kv hkv
      obtain ⟨kv', hkv', rfl⟩ := List.mem_map.1 hkv
      by_cases hk : kv'.1 = (entry.hour, entry.minute)
      · rw [if_pos hk]
        exact ⟨(hval kv' hkv').1, (hval kv' hkv').2⟩
      · rw [if_neg hk]
        exact hval kv' hkv'
  · constructor
    · rw [List.pairwise_append]
      refine ⟨hpw, List.pairwise_singleton _ _, ?_⟩
      intro a ha b hb
      rw [List.mem_singleton] at hb
      subst hb
      intro hc
      apply hhas
      rw [List.any_eq_true]
      refine ⟨a, ha, ?_⟩
      simp [hc]
    · intro kv hkv
      rcases List.mem_append.1 hkv with hm | hm
      · exact hval kv hm
      · rw [List.mem_singleton] at hm
        subst hm
        exact ⟨rfl, hrange.1, hrange.2.1, hrange.2.2.1, hrange.2.2.2⟩

/-- A fold preserves any invariant preserved by each step (with membership of
the traversed element available). -/
theorem foldl_preserves_mem {α β : Type} {P : β → Prop} (f : β → α → β) :
    ∀ (l : List α) (b : β), (∀ (b' : β) (a : α), a ∈ l → P b' → P (f b' a)) → P b →
      P (l.foldl f b)
  | [], _, _, hb => hb
  | a :: l, b, hf, hb =>
    foldl_preserves_mem f l (f b a)
      (fun b' a' ha' => hf b' a' (List.mem_cons_of_mem _ ha'))
      (hf b a (List.mem_cons_self _ _) hb)

/-- The arrival map built from an in-range snapshot satisfies the invariant. -/
theorem arrivalMapOfSnapshot_inv (snapshot : AllStationsSnapshot)
    (hr : snapshotEntriesInRange snapshot) :
    arrivalMapInv (arrivalMapOfSnapshot snapshot) := by
  unfold arrivalMapOfSnapshot
  refine foldl_preserves_mem _ _ _ ?_ ⟨List.Pairwise.nil, ?_⟩
  · intro b station hstation hb
    refine foldl_preserves_mem _ _ _ ?_ hb
    intro b timetable htimetable hb
    refine foldl_preserves_mem _ _ _ ?_ hb
    intro b tripTimetable htrip hb
    refine foldl_preserves_mem _ _ _ ?_ hb
    intro b entry hentry hb
    exact insertTimetableEntry_inv _ _ _ _ _
      (hr station hstation timetable htimetable tripTimetable htrip entry hentry) hb
  · intro kv hkv
    cases hkv

/-- From an in-range snapshot, the generated queue's timestamps are pairwise
distinct. -/
theorem generate_times_pairwise (snapshot : AllStationsSnapshot)
    (hr : snapshotEntriesInRange snapshot) :
    List.Pairwise (fun a b => a.time ≠ b.time) (generateOptimizedArrivals snapshot) := by
  obtain ⟨hpw, hval⟩ := arrivalMapOfSnapshot_inv snapshot hr
  unfold generateOptimizedArrivals sortArrivalSetArray
  rw [List.Perm.pairwise_iff (fun h he => h he.symm)
    (List.perm_insertionSort arrivalSetLE _)]
  have hmap : List.Pairwise (fun kv kv' : (ℚ × ℚ) × ArrivalSet => kv.2.time ≠ kv'.2.time)
      (arrivalMapOfSnapshot snapshot) := by
    refine hpw.imp_of_mem ?_
    intro kv kv' hkv hkv' hne heq
    apply hne
    obtain ⟨ht, hr1⟩ := hval kv hkv
    obtain ⟨ht', hr2⟩ := hval kv' hkv'
    have h1 : TimeOfDay.make kv.1.1 kv.1.2 = TimeOfDay.make kv'.1.1 kv'.1.2 := by
      rw [← ht, ← ht', heq]
    have q1 : clamp kv.1.1 1 24 = kv.1.1 :=
      (clamp_spec kv.1.1 1 24 (by norm_num)).2.2.2 hr1.1 hr1.2.1
    have q2 : clamp kv'.1.1 1 24 = kv'.1.1 :=
      (clamp_spec kv'.1.1 1 24 (by norm_num)).2.2.2 hr2.1 hr2.2.1
    have q3 : clamp kv.1.2 0 59 = kv.1.2 :=
      (clamp_spec kv.1.2 0 59 (by norm_num)).2.2.2 hr1.2.2.1 hr1.2.2.2
    have q4 : clamp kv'.1.2 0 59 = kv'.1.2 :=
      (clamp_spec kv'.1.2 0 59 (by norm_num)).2.2.2 hr2.2.2.1 hr2.2.2.2
    have hh := congrArg TimeOfDay.hour h1
    have hm := congrArg TimeOfDay.minute h1
    simp only [TimeOfDay.make, q1, q2, q3, q4] at hh hm
    rcases kv with ⟨⟨a1, a2⟩, av⟩
    rcases kv' with ⟨⟨b1, b2⟩, bv⟩
    simp only at hh hm
    simp [hh, hm]
  refine List.Pairwise.map _ ?_ hmap
  intro a b h
  exact h

/-- C6: the index builder coalesces all events sharing an exact (hour, minute)
timestamp into a single batch — for any snapshot whose entries are in the
documented range, the generated queue holds at most one batch per distinct
timestamp; and two different stations each with a trip arriving at 8:15
produce exactly one batch holding both events. -/
theorem coalescing_unique_times :
    (∀ snapshot : AllStationsSnapshot, snapshotEntriesInRange snapshot →
      List.Pairwise (fun a b => a.time ≠ b.time) (generateOptimizedArrivals snapshot)) ∧
    generateOptimizedArrivals snapshotTwo815 =
      [ { time := { hour := 8, minute := 15 },
          arrivals := [ { route := "6", tripName := "tripA",
                          location := { latitude := 46.05, longitude := 14.50 } },
                        { route := "2", tripName := "tripB",
                          location := { latitude := 46.06, longitude := 14.51 } } ] } ] := by
  exact ⟨generate_times_pairwise, by rfl⟩

/-- C6 witness: the coalescing invariant applied to the two-station 8:15
snapshot. -/
theorem coalescing_unique_times_witness :
    snapshotEntriesInRange snapshotTwo815 ∧
    List.Pairwise (fun a b => a.time ≠ b.time) (generateOptimizedArrivals snapshotTwo815) := by
  have hrange : snapshotEntriesInRange snapshotTwo815 := by
    decide
  exact ⟨hrange, coalescing_unique_times.1 snapshotTwo815 hrange⟩

/-- Station A for the closest-station scenario; the query point will sit
exactly on its coordinates. -/
def stationA : StationDetailsWithBusesAndTimetables :=
  { stationCode := "600011", internalStationId := 1, name := "A",
    location := { latitude := 46, longitude := 14 }, timetables := [] }

/-- Station B, scanned after A, farther from the query point. -/
def stationB : StationDetailsWithBusesAndTimetables :=
  { stationCode := "600012", internalStationId := 2, name := "B",
    location := { latitude := 47, longitude := 15 }, timetables := [] }

def snapshotAB : AllStationsSnapshot :=
  { stationDetails := [stationA, stationB] }

/-- The distance function realized by a query placed exactly at station A's
coordinates: the great-circle distance to A is exactly 0
(`haversineDistance_self`) and to B it is some positive value, here 5. -/
def distZeroAtA (loc : GeographicalLocation) : ℚ :=
  if loc = stationA.location then 0 else 5

/-- C9 (code bug): with the query exactly at the first-scanned station's
coordinates, that station's stored best distance is 0; the JavaScript guard
`closestDistance || Infinity` treats 0 as falsy and yields Infinity, so the
later station at distance 5 overrides the exact match and the scan returns
(5, B) instead of the minimal (0, A). -/
theorem closestStation_zero_distance_bug :
    distZeroAtA stationA.location = 0 ∧
    distZeroAtA stationB.location = 5 ∧
    stationA ∈ snapshotAB.stationDetails ∧
    distZeroAtA stationA.location < 5 ∧
    getClosestStation distZeroAtA snapshotAB = some (5, stationB) := by
  refine ⟨by rfl, by rfl, ?_, by norm_num [distZeroAtA, stationA, stationB], by rfl⟩
  unfold snapshotAB
  exact List.mem_cons_self _ _

end LPP
